import Mathlib

/-!
Verification of the fcache in-process TTL key-value cache (src/cache.go).

Shallow embedding: the Go `map[string]Item` is a total function
`String → Option (Item V)` (Go maps have unique keys and the operations in
scope act on each key independently, so the quotient by iteration order is
faithful).  `time.Now().UnixNano()` is passed in as an explicit `now : Int`
parameter at every point the source reads the clock.  Stored values
(`interface\x7b\x7d` in Go) are a type parameter `V`.  The gob codec is
modelled as an identity round-trip on the entry map (the snapshot stream
content is the map itself, or a decode error), which matches the spec's
requirement that Save/Load be inverse operations on one deployment.
Locking is erased in the functional operations; a separate lock-event
trace transcription of `Add`, `Update` and `Inc` captures the
lock-handling behaviour of those operations.
-/

namespace FCache

/-- Go: `NoExpiration time.Duration = -1` (src/cache.go). -/
def NoExpiration : Int := -1

/-- Go: `DefaultExpiration time.Duration = 0` (src/cache.go). -/
def DefaultExpiration : Int := 0

/-- The stored entry: value plus absolute expiration in nanoseconds
(0 = never expires). -/
structure Item (V : Type) where
  Object : V
  Expiration : Int
  deriving Repr, DecidableEq

/-- Modelled from the spec: the `Item.Expired` method is referenced by
src/cache.go but the file declaring `Item`'s methods is not among the
sources.  Spec: "an entry with `Expiration > 0` is expired when the current
time strictly exceeds `Expiration`; an entry with `Expiration <= 0` is never
expired." -/
def Item.Expired {V : Type} (item : Item V) (now : Int) : Bool :=
  decide (0 < item.Expiration) && decide (item.Expiration < now)

/-- The cache: default TTL and the entry map.  The mutex, gcInterval and
stopGc channel of the Go struct carry no functional state and are modelled
separately (lock traces, sweeper state machine). -/
@[ext] structure Cache (V : Type) where
  defaultExpiration : Int
  items : String → Option (Item V)

variable {V : Type}

/-- Go `delete(c.items, k)` inside `c.delete`. -/
def Cache.delete (c : Cache V) (k : String) : Cache V :=
  { c with items := fun k2 => if k2 = k then none else c.items k2 }

/-- Go `c.set(k, v, d)` (src/cache.go lines 55-67): substitute the default
duration for the `DefaultExpiration` sentinel, then store absolute
expiration `now + d` when the resolved `d > 0`, else 0. -/
def Cache.set (c : Cache V) (now : Int) (k : String) (v : V) (d : Int) : Cache V :=
  let d2 := if d = DefaultExpiration then c.defaultExpiration else d
  let e : Int := if 0 < d2 then now + d2 else 0
  { c with items := fun k2 => if k2 = k then some ⟨v, e⟩ else c.items k2 }

/-- Go `c.get(k)` (src/cache.go lines 87-96): absent or expired reads as
`(nil, false)`, otherwise `(item.Object, true)`. -/
def Cache.get (c : Cache V) (now : Int) (k : String) : Option V × Bool :=
  match c.items k with
  | none => (none, false)
  | some item => if item.Expired now then (none, false) else (some item.Object, true)

/-- Public `Set` (takes the lock, then `c.set`). -/
def Cache.Set (c : Cache V) (now : Int) (k : String) (v : V) (d : Int) : Cache V :=
  c.set now k v d

/-- Public `Get` (takes the lock, then `c.get`). -/
def Cache.Get (c : Cache V) (now : Int) (k : String) : Option V × Bool :=
  c.get now k

/-- The error values the store operations build with `fmt.Errorf`. -/
inductive CacheErr where
  | keyAlreadyExists (k : String)   -- "Item % s already exists"
  | keyNotFound (k : String)        -- "Item %s doesn't exist"
  deriving Repr, DecidableEq

/-- Go `Add` (src/cache.go lines 75-85): if `c.get(k)` reports the key
present (live), return the already-exists error and leave the map alone;
otherwise `c.set` and return nil. -/
def Cache.Add (c : Cache V) (now : Int) (k : String) (v : V) (d : Int) :
    Cache V × Option CacheErr :=
  if (c.get now k).2 then (c, some (CacheErr.keyAlreadyExists k))
  else (c.set now k v d, none)

/-- Go `Update` (src/cache.go lines 104-114): if `c.get(k)` reports the key
absent/expired, return the not-found error without writing; otherwise
`c.set` and return nil.  (The stray second `c.mu.Lock()` on the error path
is captured by `Cache.UpdateTrace` below.) -/
def Cache.Update (c : Cache V) (now : Int) (k : String) (v : V) (d : Int) :
    Cache V × Option CacheErr :=
  if (c.get now k).2 then (c.set now k v d, none)
  else (c, some (CacheErr.keyNotFound k))

/-- Go `DeleteExpired` (src/cache.go lines 39-49): remove every entry with
`v.Expiration > 0 && now > v.Expiration`. -/
def Cache.DeleteExpired (c : Cache V) (now : Int) : Cache V :=
  { c with items := fun k =>
      match c.items k with
      | none => none
      | some v => if decide (0 < v.Expiration) && decide (v.Expiration < now)
                  then none else some v }

/-- Go `Flush` (src/cache.go lines 198-202): replace the map with an empty one. -/
def Cache.Flush (c : Cache V) : Cache V :=
  { c with items := fun _ => none }

/-- Go `Save` (src/cache.go lines 134-148): the stream receives the gob
encoding of the whole entry map; under the identity-round-trip codec model
the stream content is the map itself. -/
def Cache.Save (c : Cache V) : String → Option (Item V) :=
  c.items

/-- Go `Load` (src/cache.go lines 162-178): decode into a fresh temporary
map; on decode error return it with the live map untouched; otherwise merge
each decoded entry into the live map only where the live key is absent or
the live entry is expired. -/
def Cache.Load (c : Cache V) (now : Int)
    (src : Except String (String → Option (Item V))) :
    Cache V × Option String :=
  match src with
  | Except.error e => (c, some e)
  | Except.ok decoded =>
    ({ c with items := fun k =>
        match decoded k, c.items k with
        | some v, none => some v
        | some v, some item => if item.Expired now then some v else some item
        | none, x => x }, none)

/- Lock-event traces.  `Add`, `Update` and `Inc` manipulate `c.mu`
explicitly (no defer); the trace functions below transcribe, per control
path, the sequence of `c.mu.Lock()` / `c.mu.Unlock()` calls each public
operation performs before returning. -/

/-- A mutex event on `c.mu`. -/
inductive LockEv where
  | lock
  | unlock
  deriving Repr, DecidableEq

/-- Go `Add`: `Lock`; `get`; if found `Unlock`, return error; else `set`,
`Unlock`, return nil.  Both paths release the lock exactly once. -/
def Cache.AddTrace (c : Cache V) (now : Int) (k : String) : List LockEv :=
  if (c.get now k).2 then [LockEv.lock, LockEv.unlock]     -- error path
  else [LockEv.lock, LockEv.unlock]                        -- success path

/-- Go `Update`: `Lock`; `get`; if not found `Lock` AGAIN, return error
(src/cache.go line 108: `c.mu.Lock()` where an unlock was intended); else
`set`, `Unlock`, return nil. -/
def Cache.UpdateTrace (c : Cache V) (now : Int) (k : String) : List LockEv :=
  if (c.get now k).2 then [LockEv.lock, LockEv.unlock]     -- success path
  else [LockEv.lock, LockEv.lock]                          -- error path

/-- Go `Inc` (src/cache.go lines 116-126): `Lock`; `get`; if not found
`Lock` AGAIN, return error; else `Unlock`, return nil (the increment body
is commented out). -/
def Cache.IncTrace (c : Cache V) (now : Int) (k : String) : List LockEv :=
  if (c.get now k).2 then [LockEv.lock, LockEv.unlock]     -- success path
  else [LockEv.lock, LockEv.lock]                          -- error path

/-- Replays a trace against a non-reentrant mutex: `true` when the trace
tries to acquire the lock while already holding it (a self-deadlock).  The
first argument is whether the lock is currently held. -/
def selfDeadlocks : Bool → List LockEv → Bool
  | _, [] => false
  | true, LockEv.lock :: _ => true
  | false, LockEv.lock :: rest => selfDeadlocks true rest
  | _, LockEv.unlock :: rest => selfDeadlocks false rest

/- Sweeper lifecycle.  `gcLoop` (src/cache.go lines 27-38) loops on a
select over the ticker and the unbuffered `stopGc` channel
(`make(chan bool)` in `NewCache`); receiving the stop signal stops the
ticker and returns. -/

/-- Whether the gcLoop goroutine is still at its select. -/
inductive SweeperState where
  | running
  | exited
  deriving Repr, DecidableEq

/-- One iteration of `gcLoop`'s select: a ticker tick sweeps and keeps
looping; a received stop signal terminates the loop.  An exited loop
processes nothing further. -/
inductive GcEvent where
  | tick
  | stop
  deriving Repr, DecidableEq

/-- Transcription of `gcLoop`'s select body acting on the sweeper state and
the cache. -/
def gcLoopStep (s : SweeperState) (e : GcEvent) (c : Cache V) (now : Int) :
    SweeperState × Cache V :=
  match s, e with
  | SweeperState.running, GcEvent.tick => (SweeperState.running, c.DeleteExpired now)
  | SweeperState.running, GcEvent.stop => (SweeperState.exited, c)
  | SweeperState.exited, _ => (SweeperState.exited, c)

/-- Go `StopGc` does `c.stopGc <- true` on the unbuffered channel: the send
is a rendezvous that completes only when the gcLoop is at its select ready
to receive; with the loop exited no receiver exists and the sender blocks
forever. -/
def StopGcBlocks : SweeperState → Bool
  | SweeperState.running => false
  | SweeperState.exited => true

/- Concrete fixtures used by witnesses and counterexamples. -/

/-- An empty cache over `Nat` values with default TTL 0. -/
def cEmpty : Cache Nat :=
  { defaultExpiration := 0, items := fun _ => none }

/-- A cache holding one never-expiring (hence live) entry under "a". -/
def cLive : Cache Nat :=
  { defaultExpiration := 0,
    items := fun k => if k = "a" then some ⟨1, 0⟩ else none }

/-- A cache holding one entry under "a" that is expired at any `now > 5`. -/
def cDead : Cache Nat :=
  { defaultExpiration := 0,
    items := fun k => if k = "a" then some ⟨1, 5⟩ else none }

/-! Theorems. -/

/-- C1: `Get` returns `found = false` exactly when the key is absent or the
stored entry is expired (`Expiration > 0` and `now` strictly past it); an
entry with `Expiration <= 0` is never expired and is returned; and a key set
at time `now` with duration `d > 0` reads as found until strictly after
`now + d` and as not found thereafter, with no sweep involved. -/
theorem C1_get_ttl (c : Cache V) (now : Int) (k : String) :
    ((c.Get now k).2 = false ↔
      c.items k = none ∨
        ∃ it, c.items k = some it ∧ 0 < it.Expiration ∧ it.Expiration < now)
    ∧ (∀ it, c.items k = some it → it.Expiration ≤ 0 →
        c.Get now k = (some it.Object, true))
    ∧ (∀ (v : V) (d t : Int), 0 < d → 0 < now →
        (((c.Set now k v d).Get t k).2 = true ↔ t ≤ now + d)) := by
  refine ⟨?_, ?_, ?_⟩
  · simp only [Cache.Get, Cache.get]
    cases h : c.items k with
    | none => simp [h]
    | some it =>
      by_cases h1 : 0 < it.Expiration ∧ it.Expiration < now
      · simp [h, Item.Expired, h1]
      · simp [h, Item.Expired, h1]
  · intro it h hle
    have hexp : it.Expired now = false := by
      simp [Item.Expired]; omega
    simp [Cache.Get, Cache.get, h, hexp]
  · intro v d t hd hnow
    have hdne : ¬ (d = 0) := by omega
    have hpos : (0 : Int) < now + d := by omega
    by_cases ht : now + d < t
    · simp [Cache.Set, Cache.set, Cache.Get, Cache.get, hdne, Item.Expired,
        DefaultExpiration, hd, hpos, ht]
    · simp [Cache.Set, Cache.set, Cache.Get, Cache.get, hdne, Item.Expired,
        DefaultExpiration, hd, hpos, ht]
      omega

/-- C1 witness: at `now = 5`, setting "x" with TTL 3 makes `Get` found at
`t = 8` (since `8 ≤ 5 + 3`) and not found at `t = 9`. -/
theorem C1_get_ttl_witness :
    (((cEmpty.Set 5 "x" 7 3).Get 8 "x").2 = true ↔ (8 : Int) ≤ 5 + 3)
    ∧ (((cEmpty.Set 5 "x" 7 3).Get 9 "x").2 = true ↔ (9 : Int) ≤ 5 + 3) :=
  ⟨(C1_get_ttl cEmpty 5 "x").2.2 7 3 8 (by decide) (by decide),
   (C1_get_ttl cEmpty 5 "x").2.2 7 3 9 (by decide) (by decide)⟩

/-- C2: `Set` unconditionally writes under `k` the value together with
expiration `now + d2` when the resolved duration `d2` is positive and `0`
otherwise, where `d2` substitutes the cache default for the
`DefaultExpiration` sentinel; every other key is untouched; `Set` returns
nothing (its Go signature has no error result). -/
theorem C2_set_semantics (c : Cache V) (now : Int) (k : String) (v : V) (d : Int) :
    ((c.Set now k v d).items k =
      some ⟨v, if 0 < (if d = DefaultExpiration then c.defaultExpiration else d)
               then now + (if d = DefaultExpiration then c.defaultExpiration else d)
               else 0⟩)
    ∧ (∀ k2, k2 ≠ k → (c.Set now k v d).items k2 = c.items k2) := by
  constructor
  · simp [Cache.Set, Cache.set]
  · intro k2 hne
    simp [Cache.Set, Cache.set, hne]

/-- C2 witness: `Set` with the `NoExpiration` sentinel stores expiration 0
under "x" and leaves "y" alone. -/
theorem C2_set_semantics_witness :
    ((cEmpty.Set 5 "x" 7 NoExpiration).items "x" = some ⟨7, 0⟩)
    ∧ ((cEmpty.Set 5 "x" 7 NoExpiration).items "y" = none) :=
  ⟨by
     have h := (C2_set_semantics cEmpty 5 "x" 7 NoExpiration).1
     simpa using h,
   by
     have h := (C2_set_semantics cEmpty 5 "x" 7 NoExpiration).2 "y" (by decide)
     simpa using h⟩

/-- C3: `Add` fails with the already-exists error exactly when a live
(non-expired) entry sits under the key, leaving the store unchanged; when
the key is absent or its entry is expired, `Add` writes exactly what `Set`
would and returns no error. -/
theorem C3_add (c : Cache V) (now : Int) (k : String) (v : V) (d : Int) :
    (∀ it, c.items k = some it → it.Expired now = false →
        c.Add now k v d = (c, some (CacheErr.keyAlreadyExists k)))
    ∧ ((c.items k = none ∨ ∃ it, c.items k = some it ∧ it.Expired now = true) →
        c.Add now k v d = (c.Set now k v d, none)) := by
  constructor
  · intro it h hexp
    simp [Cache.Add, Cache.get, h, hexp]
  · rintro (h | ⟨it, h, hexp⟩)
    · simp [Cache.Add, Cache.Set, Cache.get, h]
    · simp [Cache.Add, Cache.Set, Cache.get, h, hexp]

/-- C3 witness: `Add` on the live key "a" fails and leaves the cache
unchanged; `Add` on an expired entry succeeds and writes like `Set`. -/
theorem C3_add_witness :
    (cLive.Add 5 "a" 2 3 = (cLive, some (CacheErr.keyAlreadyExists "a")))
    ∧ (cDead.Add 9 "a" 2 3 = (cDead.Set 9 "a" 2 3, none)) :=
  ⟨(C3_add cLive 5 "a" 2 3).1 ⟨1, 0⟩ (by simp [cLive]) (by decide),
   (C3_add cDead 9 "a" 2 3).2 (Or.inr ⟨⟨1, 5⟩, by simp [cDead], by decide⟩)⟩

/-- C4: `Update` fails with the not-found error when no live entry exists
under the key (absent or expired) and inserts nothing; when a live entry
exists it overwrites exactly as `Set` would and returns no error.  (The
lock mishandling on the error path is the subject of `C5`; this theorem
states the functional behaviour.) -/
theorem C4_update (c : Cache V) (now : Int) (k : String) (v : V) (d : Int) :
    ((c.items k = none ∨ ∃ it, c.items k = some it ∧ it.Expired now = true) →
        c.Update now k v d = (c, some (CacheErr.keyNotFound k)))
    ∧ (∀ it, c.items k = some it → it.Expired now = false →
        c.Update now k v d = (c.Set now k v d, none)) := by
  constructor
  · rintro (h | ⟨it, h, hexp⟩)
    · simp [Cache.Update, Cache.get, h]
    · simp [Cache.Update, Cache.get, h, hexp]
  · intro it h hexp
    simp [Cache.Update, Cache.Set, Cache.get, h, hexp]

/-- C4 witness: `Update` on the absent key "a" fails without inserting;
`Update` on the live key "a" writes like `Set`. -/
theorem C4_update_witness :
    (cEmpty.Update 5 "a" 2 3 = (cEmpty, some (CacheErr.keyNotFound "a")))
    ∧ (cLive.Update 5 "a" 2 3 = (cLive.Set 5 "a" 2 3, none)) :=
  ⟨(C4_update cEmpty 5 "a" 2 3).1 (Or.inl rfl),
   (C4_update cLive 5 "a" 2 3).2 ⟨1, 0⟩ (by simp [cLive]) (by decide)⟩

/-- C5 counterexample: the claim asserts that `Add` too re-acquires the lock
on its error path, but `Add`'s error path (here: key "a" is live, so the
key check fails) releases the lock correctly and does not self-deadlock. -/
theorem C5_counterexample :
    (cLive.get 5 "a").2 = true
    ∧ selfDeadlocks false (cLive.AddTrace 5 "a") = false := by
  constructor
  · rfl
  · rfl

/-- C5 amended: `Update` and `Inc` acquire the lock and, on the error path
(key check fails), acquire the same exclusive lock a second time instead of
releasing it — a self-deadlock under a non-reentrant lock; `Add`, by
contrast, releases the lock exactly once on every path and never
self-deadlocks. -/
theorem C5_amended_double_lock (c : Cache V) (now : Int) (k : String)
    (h : (c.get now k).2 = false) :
    selfDeadlocks false (c.UpdateTrace now k) = true
    ∧ selfDeadlocks false (c.IncTrace now k) = true
    ∧ (∀ (c2 : Cache V) (now2 : Int) (k2 : String),
        selfDeadlocks false (c2.AddTrace now2 k2) = false) := by
  refine ⟨?_, ?_, ?_⟩
  · simp [Cache.UpdateTrace, h, selfDeadlocks]
  · simp [Cache.IncTrace, h, selfDeadlocks]
  · intro c2 now2 k2
    unfold Cache.AddTrace
    split <;> simp [selfDeadlocks]

/-- C5 witness: on the empty cache the key check for "a" fails, `Update`'s
and `Inc`'s traces self-deadlock, and `Add`'s trace on the live cache does
not. -/
theorem C5_amended_double_lock_witness :
    selfDeadlocks false (cEmpty.UpdateTrace 5 "a") = true
    ∧ selfDeadlocks false (cEmpty.IncTrace 5 "a") = true
    ∧ selfDeadlocks false (cLive.AddTrace 5 "a") = false :=
  ⟨(C5_amended_double_lock cEmpty 5 "a" rfl).1,
   (C5_amended_double_lock cEmpty 5 "a" rfl).2.1,
   (C5_amended_double_lock cEmpty 5 "a" rfl).2.2 cLive 5 "a"⟩

/-- C6: `DeleteExpired` removes exactly the entries with `Expiration > 0`
strictly below the current time, keeps every other entry unchanged, and is
idempotent: a second sweep at the same time is a no-op. -/
theorem C6_deleteExpired (c : Cache V) (now : Int) :
    (∀ k it, c.items k = some it → 0 < it.Expiration → it.Expiration < now →
        (c.DeleteExpired now).items k = none)
    ∧ (∀ k it, c.items k = some it → ¬(0 < it.Expiration ∧ it.Expiration < now) →
        (c.DeleteExpired now).items k = some it)
    ∧ (∀ k, c.items k = none → (c.DeleteExpired now).items k = none)
    ∧ (c.DeleteExpired now).DeleteExpired now = c.DeleteExpired now := by
  refine ⟨?_, ?_, ?_, ?_⟩
  · intro k it h h1 h2
    simp [Cache.DeleteExpired, h, h1, h2]
  · intro k it h h1
    simp only [Cache.DeleteExpired, h]
    rw [if_neg]
    simpa using h1
  · intro k h
    simp [Cache.DeleteExpired, h]
  · refine Cache.ext rfl ?_
    funext k
    simp only [Cache.DeleteExpired]
    cases h : c.items k with
    | none => simp
    | some it =>
      by_cases h1 : (decide (0 < it.Expiration) && decide (it.Expiration < now)) = true
      · simp [h1]
      · simp [h1]

/-- C6 witness: at `now = 10` the expired entry of `cDead` is removed while
the never-expiring entry of `cLive` survives. -/
theorem C6_deleteExpired_witness :
    ((cDead.DeleteExpired 10).items "a" = none)
    ∧ ((cLive.DeleteExpired 10).items "a" = some ⟨1, 0⟩) :=
  ⟨(C6_deleteExpired cDead 10).1 "a" ⟨1, 5⟩ (by simp [cDead]) (by decide) (by decide),
   (C6_deleteExpired cLive 10).2.1 "a" ⟨1, 0⟩ (by simp [cLive]) (by decide)⟩

/-- C7: the `Load` merge installs a decoded key only where the live store
has no entry or an expired one; a live entry is never overwritten, so `Get`
on a key that was live before `Load` still returns the pre-`Load` value. -/
theorem C7_load_merge (c : Cache V) (now : Int)
    (decoded : String → Option (Item V)) :
    (∀ k it, c.items k = some it → it.Expired now = false →
        ((c.Load now (Except.ok decoded)).1).items k = some it)
    ∧ (∀ k v, c.items k = none → decoded k = some v →
        ((c.Load now (Except.ok decoded)).1).items k = some v)
    ∧ (∀ k it v, c.items k = some it → it.Expired now = true → decoded k = some v →
        ((c.Load now (Except.ok decoded)).1).items k = some v)
    ∧ (∀ k, (c.Get now k).2 = true →
        ((c.Load now (Except.ok decoded)).1).Get now k = c.Get now k) := by
  refine ⟨?_, ?_, ?_, ?_⟩
  · intro k it h hexp
    cases hdec : decoded k with
    | none => simp [Cache.Load, h, hdec]
    | some w => simp [Cache.Load, h, hdec, hexp]
  · intro k v h hdec
    simp [Cache.Load, h, hdec]
  · intro k it v h hexp hdec
    simp [Cache.Load, h, hdec, hexp]
  · intro k hlive
    cases h : c.items k with
    | none => simp [Cache.Get, Cache.get, h] at hlive
    | some it =>
      by_cases hexp : it.Expired now = true
      · simp [Cache.Get, Cache.get, h, hexp] at hlive
      · have hexp2 : it.Expired now = false := by
          simpa using hexp
        cases hdec : decoded k with
        | none => simp [Cache.Load, Cache.Get, Cache.get, h, hdec]
        | some w => simp [Cache.Load, Cache.Get, Cache.get, h, hdec, hexp2]

/-- C7 witness: merging a decoded map that binds "a" into the live cache
leaves the live entry under "a" in place and `Get` unchanged. -/
theorem C7_load_merge_witness :
    ((cLive.Load 5 (Except.ok (fun _ => some ⟨9, 0⟩))).1).items "a" = some ⟨1, 0⟩
    ∧ ((cLive.Load 5 (Except.ok (fun _ => some ⟨9, 0⟩))).1).Get 5 "a" = cLive.Get 5 "a" :=
  ⟨(C7_load_merge cLive 5 (fun _ => some ⟨9, 0⟩)).1 "a" ⟨1, 0⟩ (by simp [cLive]) (by decide),
   (C7_load_merge cLive 5 (fun _ => some ⟨9, 0⟩)).2.2.2 "a" rfl⟩

/-- C8: `Save` then `Flush` then `Load` of the saved stream restores the
store: under the identity-round-trip codec model the entry map after the
round trip equals the map at `Save` time, so in particular every key that
was live at `Save` time reads back with its `Save`-time value (and expired
keys, which are merely "not required to survive", here do survive). -/
theorem C8_save_flush_load_roundtrip (c : Cache V) (now : Int) :
    ((c.Flush.Load now (Except.ok c.Save)).1 = c)
    ∧ (∀ k, ((c.Flush.Load now (Except.ok c.Save)).1).Get now k = c.Get now k) := by
  have hmap : (c.Flush.Load now (Except.ok c.Save)).1 = c := by
    refine Cache.ext rfl ?_
    funext k
    simp only [Cache.Load, Cache.Flush, Cache.Save]
    cases h : c.items k <;> rfl
  exact ⟨hmap, fun k => by rw [hmap]⟩

/-- C9: the code violates the no-blocking requirement at the failing input:
once the gcLoop has consumed a stop signal and exited, a further `StopGc`
send on the unbuffered rendezvous channel has no receiver and blocks the
caller forever. -/
theorem C9_stopgc_blocks_after_exit :
    StopGcBlocks (gcLoopStep SweeperState.running GcEvent.stop cEmpty 0).1 = true := by
  rfl

/-- C10: when decoding fails, `Load` returns the decode error and the live
entry map is completely unchanged (decoding happens into a temporary map;
no merge occurs on the error path). -/
theorem C10_load_decode_error (c : Cache V) (now : Int) (e : String) :
    c.Load now (Except.error e) = (c, some e) := by
  rfl

end FCache
